import Mathlib

/-!
Verification development for the chain-indexer core.

Shallow embedding of the indexing engine found in src/indexer.ts (the
indexer core together with the rpc transport) and the cache interface.
Block heights are arbitrary-precision integers in the source (bigint), so
they are embedded as Int.  The subscription map is a JS Map, embedded as an
insertion-ordered association list with JS Map get/set semantics.

Modules of the repository that are not present under src/ (the fetch
planner, the event processor, the retry helper and the subscription-update
primitive, all imported by src/indexer.ts) are modelled from the spec; each
such definition carries a doc comment starting with "Modelled from the
spec:".  External collaborators (viem address checksumming, ABI
encode/decode, the RPC network, handlers) are oracles passed as function
arguments.
-/

namespace ChainIndexer

/-- A block target: either the moving sentinel latest or a concrete height
(ToBlock in src/indexer.ts). -/
inductive ToBlock where
  | latest : ToBlock
  | block : Int → ToBlock
deriving DecidableEq

/-- A subscription record (Subscription in the subscriptions module, as
constructed by subscribeToContract in src/indexer.ts).  The abi field is
elided: topic filtering and decoding are oracle-driven in this embedding. -/
structure Subscription where
  id : String
  contractName : String
  contractAddress : String
  fromBlock : Int
  toBlock : ToBlock
  indexedToBlock : Int
  fetchedToBlock : Int
  indexedToLogIndex : Int
deriving DecidableEq

/-- The live subscription map: a JS Map keyed by subscription id, embedded
as an insertion-ordered association list. -/
abbrev SubMap := List (String × Subscription)

/-- JS Map.get: the value stored under a key, if any. -/
def mapGet : SubMap → String → Option Subscription
  | [], _ => none
  | p :: rest, k => if p.1 = k then some p.2 else mapGet rest k

/-- JS Map.set: replace in place when the key exists, append otherwise. -/
def mapSet : SubMap → String → Subscription → SubMap
  | [], k, v => [(k, v)]
  | p :: rest, k, v => if p.1 = k then (k, v) :: rest else p :: mapSet rest k v

theorem mapGet_mapSet_self (m : SubMap) (k : String) (v : Subscription) :
    mapGet (mapSet m k v) k = some v := by
  induction m with
  | nil => simp [mapSet, mapGet]
  | cons p rest ih =>
    by_cases h : p.1 = k
    · simp [mapSet, h, mapGet]
    · simp [mapSet, h, mapGet, ih]

theorem mapGet_mapSet_ne (m : SubMap) (k k' : String) (v : Subscription)
    (h : k' ≠ k) : mapGet (mapSet m k v) k' = mapGet m k' := by
  have h' : ¬ k = k' := fun e => h e.symm
  induction m with
  | nil => simp only [mapSet, mapGet, if_neg h']
  | cons p rest ih =>
    by_cases hp : p.1 = k
    · have hpk : ¬ p.1 = k' := fun e => h' (hp.symm.trans e)
      simp only [mapSet, if_pos hp, mapGet, if_neg h', if_neg hpk]
    · simp only [mapSet, if_neg hp, mapGet]
      split
      · rfl
      · exact ih

theorem mapGet_mapSet_cases (m : SubMap) (k k' : String) (v s : Subscription)
    (h : mapGet (mapSet m k v) k' = some s) :
    (k' = k ∧ s = v) ∨ mapGet m k' = some s := by
  by_cases hk : k' = k
  · subst hk
    rw [mapGet_mapSet_self] at h
    exact Or.inl ⟨rfl, (Option.some_inj.mp h).symm⟩
  · rw [mapGet_mapSet_ne m k k' v hk] at h
    exact Or.inr h

theorem mapGet_mem_keys (m : SubMap) (k : String) (s : Subscription)
    (h : mapGet m k = some s) : k ∈ m.map Prod.fst := by
  induction m with
  | nil => simp [mapGet] at h
  | cons p rest ih =>
    by_cases hp : p.1 = k
    · simp [hp]
    · simp [mapGet, hp] at h
      simp [ih h]

/-- Modelled from the spec: the subscription-update primitive of the
subscriptions module (not under src/).  The lifecycle section says
subscriptions "are mutated only by the indexer core (cursor advances) and by
the fetch planner / processor via the core's update primitive": look up the
subscription by id, merge the updated cursor fields, store it back; ids that
are not in the map are ignored. -/
def updateSubscription (m : SubMap) (i : String)
    (f : Subscription → Subscription) : SubMap :=
  match mapGet m i with
  | none => m
  | some s => mapSet m i (f s)

theorem mapGet_updateSubscription (m : SubMap) (i k : String)
    (f : Subscription → Subscription) :
    mapGet (updateSubscription m i f) k =
      if k = i then (mapGet m i).map f else mapGet m k := by
  cases h : mapGet m i with
  | none =>
    by_cases hk : k = i
    · subst hk
      simp [updateSubscription, h]
    · simp [updateSubscription, h, hk]
  | some s =>
    by_cases hk : k = i
    · subst hk
      simp [updateSubscription, h, mapGet_mapSet_self]
    · simp [updateSubscription, h, hk, mapGet_mapSet_ne m i k (f s) hk]

theorem mapGet_updateSubscription_isSome (m : SubMap) (i : String)
    (f : Subscription → Subscription) (k : String) :
    (mapGet (updateSubscription m i f) k).isSome = (mapGet m k).isSome := by
  rw [mapGet_updateSubscription]
  by_cases hk : k = i
  · rw [if_pos hk, hk]
    cases mapGet m i <;> rfl
  · rw [if_neg hk]

/-- The for-loop in poll that applies one cursor update to every id of a
snapshot of the key set (src/indexer.ts lines 173-177, 193-198, 211-216). -/
def updateEach (f : Subscription → Subscription) :
    List String → SubMap → SubMap
  | [], m => m
  | i :: rest, m => updateEach f rest (updateSubscription m i f)

theorem mapGet_updateEach_not_mem (f : Subscription → Subscription)
    (ids : List String) (m : SubMap) (k : String) (h : k ∉ ids) :
    mapGet (updateEach f ids m) k = mapGet m k := by
  induction ids generalizing m with
  | nil => rfl
  | cons i rest ih =>
    have hk : k ≠ i := fun e => h (e ▸ List.mem_cons_self i rest)
    have hr : k ∉ rest := fun e => h (List.mem_cons_of_mem i e)
    rw [updateEach, ih _ hr, mapGet_updateSubscription, if_neg hk]

theorem mapGet_updateEach_mem {P : Subscription → Prop}
    (f : Subscription → Subscription) (hP : ∀ s, P (f s))
    (ids : List String) (m : SubMap) (k : String) (s : Subscription)
    (hk : k ∈ ids) (h : mapGet (updateEach f ids m) k = some s) : P s := by
  induction ids generalizing m with
  | nil => simp at hk
  | cons i rest ih =>
    rw [updateEach] at h
    by_cases hr : k ∈ rest
    · exact ih _ hr h
    · have hki : k = i := by
        rcases List.mem_cons.mp hk with h1 | h2
        · exact h1
        · exact absurd h2 hr
      rw [mapGet_updateEach_not_mem f rest _ k hr,
        mapGet_updateSubscription, if_pos hki] at h
      obtain ⟨s0, _, hfs⟩ := Option.map_eq_some'.mp h
      rw [← hfs]
      exact hP s0

theorem mapGet_updateEach_pres {Q : Subscription → Prop}
    (f : Subscription → Subscription) (hf : ∀ s, Q s → Q (f s))
    (ids : List String) (m : SubMap)
    (h0 : ∀ k s, mapGet m k = some s → Q s) :
    ∀ k s, mapGet (updateEach f ids m) k = some s → Q s := by
  induction ids generalizing m with
  | nil => exact h0
  | cons i rest ih =>
    intro k s h
    rw [updateEach] at h
    refine ih _ ?_ k s h
    intro k' s' h'
    rw [mapGet_updateSubscription] at h'
    by_cases hk : k' = i
    · rw [if_pos hk] at h'
      obtain ⟨s0, hs0, hfs⟩ := Option.map_eq_some'.mp h'
      rw [← hfs]
      exact hf s0 (h0 i s0 hs0)
    · rw [if_neg hk] at h'
      exact h0 k' s' h'

theorem mapGet_updateEach_isSome (f : Subscription → Subscription)
    (ids : List String) (m : SubMap) (k : String) :
    (mapGet (updateEach f ids m) k).isSome = (mapGet m k).isSome := by
  induction ids generalizing m with
  | nil => rfl
  | cons i rest ih =>
    rw [updateEach, ih, mapGet_updateSubscription]
    by_cases hk : k = i
    · rw [if_pos hk, hk]
      cases mapGet m i <;> rfl
    · rw [if_neg hk]

/-- A raw log as the planner receives it from cache or RPC; only the two
ordering coordinates matter to the engine (payload fields are opaque). -/
structure Log where
  blockNumber : Int
  logIndex : Int
deriving DecidableEq

/-- A pending event envelope queued by the planner: the log coordinates plus
the originating subscription id and contract name (decoding is deferred). -/
structure QEvent where
  blockNumber : Int
  logIndex : Int
  subscriptionId : String
  contractName : String
deriving DecidableEq

/-- The event-queue order: (blockNumber, logIndex, subscriptionId)
ascending. -/
def qLe (a b : QEvent) : Bool :=
  decide (a.blockNumber < b.blockNumber) ||
    (decide (a.blockNumber = b.blockNumber) &&
      (decide (a.logIndex < b.logIndex) ||
        (decide (a.logIndex = b.logIndex) &&
          decide (a.subscriptionId ≤ b.subscriptionId))))

/-- Insert into the priority queue, kept as a sorted list (the binary heap
of the eventQueue module, observed only through its ordered drain). -/
def qInsert (e : QEvent) : List QEvent → List QEvent
  | [] => [e]
  | x :: xs => if qLe e x then e :: x :: xs else x :: qInsert e xs

/-- Modelled from the spec: the fetch planner getSubscriptionEvents of the
subscriptions module (not under src/).  Per subscription with
fetchedToBlock < min(targetBlock, toBlock) it takes
f = max(fromBlock, fetchedToBlock + 1) and t = min(targetBlock, toBlock),
skips if f > t, and queues one pending event per log of [f, t].  The
cache-through range read and the range-too-wide bisection are abstracted
into the logsFor oracle that returns the logs of the requested range. -/
def getSubscriptionEvents (targetBlock : Int) (subs : SubMap)
    (logsFor : String → Int → Int → List Log)
    (queue : List QEvent) : List QEvent :=
  subs.foldl (fun q p =>
    let s := p.2
    let t := match s.toBlock with
      | ToBlock.latest => targetBlock
      | ToBlock.block n => min n targetBlock
    if s.fetchedToBlock < t then
      let f := max s.fromBlock (s.fetchedToBlock + 1)
      if t < f then q
      else (logsFor s.contractAddress f t).foldl
        (fun q2 l =>
          qInsert ⟨l.blockNumber, l.logIndex, p.1, s.contractName⟩ q2) q
    else q) queue

/-- The options record accepted by subscribeToContract
(src/indexer.ts lines 65-73): the id and fromLogIndex options are declared
by the interface (and passed by init when loading from the store). -/
structure SubscribeOptions where
  contract : String
  address : String
  indexedToBlock : Option Int
  fromBlock : Option Int
  fromLogIndex : Option Int
  toBlock : Option ToBlock
  id : Option String
deriving DecidableEq

/-- The subscription record built by subscribeToContract
(src/indexer.ts lines 261-275): id is the checksummed address (the
declared id option is not consulted), fromBlock defaults to 0, toBlock to
latest, indexedToBlock to the option or fromBlock - 1, fetchedToBlock is
-1 and indexedToLogIndex is 0 (the fromLogIndex option is not consulted).
The ga argument is the viem getAddress checksumming oracle. -/
def buildSubscription (ga : String → String) (o : SubscribeOptions) :
    Subscription :=
  let address := ga o.address
  let fromBlock := o.fromBlock.getD 0
  { id := address
    contractName := o.contract
    contractAddress := address
    fromBlock := fromBlock
    toBlock := o.toBlock.getD ToBlock.latest
    indexedToBlock := o.indexedToBlock.getD (fromBlock - 1)
    fetchedToBlock := -1
    indexedToLogIndex := 0 }

/-- subscribeToContract (src/indexer.ts lines 244-278): checksum the
address, fail on an unknown contract name, insert the built subscription
into the map under the checksummed address. -/
def subscribeToContract (contracts : List String) (ga : String → String)
    (subs : SubMap) (o : SubscribeOptions) : Except String SubMap :=
  if o.contract ∈ contracts then
    Except.ok (mapSet subs (ga o.address) (buildSubscription ga o))
  else
    Except.error (String.append (String.append "Contract " o.contract)
      " not found")

/-- Apply in order the subscribeToContract calls a handler issued while one
event was dispatched; the first unknown-contract error aborts. -/
def addSubs (contracts : List String) (ga : String → String) :
    SubMap → List SubscribeOptions → Except String SubMap
  | m, [] => Except.ok m
  | m, o :: os =>
    match subscribeToContract contracts ga m o with
    | Except.error e => Except.error e
    | Except.ok m2 => addSubs contracts ga m2 os

/-- A stored subscription row (subscription store interface, spec 6.3):
fetchedToBlock is not persisted. -/
structure StoredSubscription where
  id : String
  contractName : String
  contractAddress : String
  fromBlock : Int
  toBlock : ToBlock
  indexedToBlock : Int
  indexedToLogIndex : Int
deriving DecidableEq

/-- The options init passes to subscribeToContract for a stored row
(src/indexer.ts lines 284-293): the persisted indexedToLogIndex is passed
as the fromLogIndex option and the persisted id as the id option. -/
def storedToOptions (s : StoredSubscription) : SubscribeOptions :=
  { contract := s.contractName
    address := s.contractAddress
    indexedToBlock := some s.indexedToBlock
    fromBlock := some s.fromBlock
    fromLogIndex := some s.indexedToLogIndex
    toBlock := some s.toBlock
    id := some s.id }

/-- init (src/indexer.ts lines 280-298): re-subscribe every stored row in
order, starting from the given map (the fresh indexer starts empty). -/
def initSubscriptions (contracts : List String) (ga : String → String) :
    SubMap → List StoredSubscription → Except String SubMap
  | m, [] => Except.ok m
  | m, s :: rest =>
    match subscribeToContract contracts ga m (storedToOptions s) with
    | Except.error e => Except.error e
    | Except.ok m2 => initSubscriptions contracts ga m2 rest

/-- Lexicographic order on (blockNumber, logIndex) cursor pairs. -/
def pairLe (b1 l1 b2 l2 : Int) : Bool :=
  decide (b1 < b2) || (decide (b1 = b2) && decide (l1 ≤ l2))

/-- The cursor advance the processor applies after dispatching an event. -/
def setIndexed (b l : Int) (s : Subscription) : Subscription :=
  { s with indexedToBlock := b, indexedToLogIndex := l }

/-- The cursor update the poll loop applies after the planner returns. -/
def setFetched (b : Int) (s : Subscription) : Subscription :=
  { s with fetchedToBlock := b }

/-- Modelled from the spec: the drain loop of processEvents (event
processor module, not under src/).  Takes the smallest queued event while
its blockNumber is at most targetBlock; drops events whose subscription is
absent; skips events at or below the subscription's (indexedToBlock,
indexedToLogIndex) dedup point; skips events the ABI decode rejects (the
decodeOk oracle); otherwise dispatches it, applies the subscriptions the
handler adds (the newSubsOf oracle), advances the subscription cursor to
the event coordinates, and stops draining when at least one subscription
was added.  Returns the map, the remaining queue, the
hasNewSubscriptions flag and the dispatched events in order. -/
structure DrainResult where
  subs : SubMap
  queue : List QEvent
  hasNewSubscriptions : Bool
  dispatched : List QEvent
deriving DecidableEq

def drainEvents (contracts : List String) (ga : String → String)
    (targetBlock : Int) (newSubsOf : QEvent → List SubscribeOptions)
    (decodeOk : QEvent → Bool) :
    SubMap → List QEvent → List QEvent → Except String DrainResult
  | subs, [], disp => Except.ok ⟨subs, [], false, disp.reverse⟩
  | subs, e :: rest, disp =>
    if targetBlock < e.blockNumber then
      Except.ok ⟨subs, e :: rest, false, disp.reverse⟩
    else
      match mapGet subs e.subscriptionId with
      | none => drainEvents contracts ga targetBlock newSubsOf decodeOk
          subs rest disp
      | some s =>
        if pairLe e.blockNumber e.logIndex s.indexedToBlock
            s.indexedToLogIndex then
          drainEvents contracts ga targetBlock newSubsOf decodeOk
            subs rest disp
        else if decodeOk e then
          match addSubs contracts ga subs (newSubsOf e) with
          | Except.error err => Except.error err
          | Except.ok subs1 =>
            let subs2 := updateSubscription subs1 e.subscriptionId
              (setIndexed e.blockNumber e.logIndex)
            if (newSubsOf e).isEmpty then
              drainEvents contracts ga targetBlock newSubsOf decodeOk
                subs2 rest (e :: disp)
            else
              Except.ok ⟨subs2, rest, true, (e :: disp).reverse⟩
        else
          drainEvents contracts ga targetBlock newSubsOf decodeOk
            subs rest disp

/-- Modelled from the spec: the watermark processEvents returns, the
pointwise lexicographic min of (indexedToBlock, indexedToLogIndex) across
all subscriptions; with no subscriptions there is nothing pending and the
tick's target stands in (the vacuous case, never exercised here). -/
def watermark (targetBlock : Int) : SubMap → Int × Int
  | [] => (targetBlock, 0)
  | p :: rest =>
    rest.foldl (fun acc q =>
      if pairLe q.2.indexedToBlock q.2.indexedToLogIndex acc.1 acc.2 then
        (q.2.indexedToBlock, q.2.indexedToLogIndex)
      else acc)
      (p.2.indexedToBlock, p.2.indexedToLogIndex)

/-- The record processEvents resolves with (spec 4.P), plus the map and
queue it leaves behind and the dispatch trace. -/
structure ProcessOutcome where
  subs : SubMap
  queue : List QEvent
  indexedToBlock : Int
  indexedToLogIndex : Int
  hasNewSubscriptions : Bool
  dispatched : List QEvent
deriving DecidableEq

/-- Modelled from the spec: processEvents (event processor module, not
under src/): drain the queue, then report the min watermark across all
subscriptions of the resulting map. -/
def processEvents (contracts : List String) (ga : String → String)
    (targetBlock : Int) (newSubsOf : QEvent → List SubscribeOptions)
    (decodeOk : QEvent → Bool) (subs : SubMap) (queue : List QEvent) :
    Except String ProcessOutcome :=
  match drainEvents contracts ga targetBlock newSubsOf decodeOk
      subs queue [] with
  | Except.error e => Except.error e
  | Except.ok d =>
    let w := watermark targetBlock d.subs
    Except.ok ⟨d.subs, d.queue, w.1, w.2, d.hasNewSubscriptions,
      d.dispatched⟩

/-- Which lifecycle call created the running state: it fixes the onError
and onStop callbacks (watch emits error signals and has a no-op onStop;
indexToBlock rejects its completion and stops on error, resolves on stop);
src/indexer.ts lines 403-412 and 440-454. -/
inductive PollMode where
  | watchMode : PollMode
  | indexMode : PollMode
deriving DecidableEq

/-- The fields of the running state relevant to the embedding (the timer
handle is represented by the scheduling fields of the results below). -/
structure RunningInfo where
  targetBlock : ToBlock
  mode : PollMode
deriving DecidableEq

/-- The indexer state machine (src/indexer.ts lines 89-108). -/
inductive SMState where
  | initial : SMState
  | running : RunningInfo → SMState
  | stopped : SMState
deriving DecidableEq

/-- The signals the engine emits on its event emitter (IndexerEvents). -/
inductive Signal where
  | started : Signal
  | stoppedSig : Signal
  | errorSig : String → Signal
  | progress : Int → Int → Nat → Signal
deriving DecidableEq

def isProgressSig : Signal → Bool
  | Signal.progress _ _ _ => true
  | _ => false

/-- The engine configuration pieces the poll loop consults
(src/indexer.ts Config): the ABI registry key set, the checksumming
oracle, whether a subscription store is configured, and the polling
interval (default 1000 ms). -/
structure IndexerCfg where
  contracts : List String
  ga : String → String
  hasStore : Bool
  pollingIntervalMs : Nat

/-- The external world one tick observes: the chain head, the logs served
for a (address, fromBlock, toBlock) range request, the subscriptions user
handlers add while an event is dispatched, and ABI decode success. -/
structure Oracles where
  lastBlock : Int
  logsFor : String → Int → Int → List Log
  newSubsOf : QEvent → List SubscribeOptions
  decodeOk : QEvent → Bool

/-- Everything one poll tick did: the state machine state, subscription
map and queue it left behind, the signals it emitted in order, the delay
of the next scheduled tick (none when no tick was scheduled), how many
times it saved the subscriptions to the store, the resolved target block,
the processor's hasNewSubscriptions flag, the dispatched events, and the
error an indexToBlock completion was rejected with. -/
structure PollResult where
  state : SMState
  subs : SubMap
  queue : List QEvent
  signals : List Signal
  nextPollDelay : Option Nat
  storeSaves : Nat
  targetBlock : Int
  hasNew : Bool
  dispatched : List QEvent
  rejected : Option String
deriving DecidableEq

/-- Step 1 of the tick (src/indexer.ts lines 152-159): resolve the moving
latest target through getLastBlockNumber, else use the concrete target. -/
def pollTargetBlock (or : Oracles) (info : RunningInfo) : Int :=
  match info.targetBlock with
  | ToBlock.latest => or.lastBlock
  | ToBlock.block n => n

/-- Step 2 (lines 161-171): the planner fills the queue. -/
def pollPlannedQueue (or : Oracles) (info : RunningInfo) (subs : SubMap)
    (queue : List QEvent) : List QEvent :=
  getSubscriptionEvents (pollTargetBlock or info) subs or.logsFor queue

/-- Step 3 (lines 173-177): every snapshotted subscription gets
fetchedToBlock = targetBlock. -/
def pollFetchedSubs (or : Oracles) (info : RunningInfo) (subs : SubMap) :
    SubMap :=
  updateEach (setFetched (pollTargetBlock or info)) (subs.map Prod.fst) subs

/-- Step 4 (lines 179-191): the event processor call of the tick. -/
def pollProcess (cfg : IndexerCfg) (or : Oracles) (info : RunningInfo)
    (subs : SubMap) (queue : List QEvent) : Except String ProcessOutcome :=
  processEvents cfg.contracts cfg.ga (pollTargetBlock or info) or.newSubsOf
    or.decodeOk (pollFetchedSubs or info subs)
    (pollPlannedQueue or info subs queue)

/-- Steps 5-8 of the tick (src/indexer.ts lines 193-242) once the
processor resolved: set the snapshotted ids' cursors to the processor
watermark; on hasNewSubscriptions persist and reschedule at delay 0; else
set the snapshotted ids' cursors to (targetBlock, 0), emit progress with
currentBlock = the processor's indexedToBlock, persist, and either stop
(concrete target reached: emit stopped, no further tick) or schedule the
next tick at the polling interval. -/
def atTargetBlock (info : RunningInfo) (tb : Int) : Bool :=
  match info.targetBlock with
  | ToBlock.latest => false
  | ToBlock.block n => decide (n = tb)

def pollAfterProcess (cfg : IndexerCfg) (info : RunningInfo) (tb : Int)
    (ids : List String) (out : ProcessOutcome) : PollResult :=
  let subs2 := updateEach (setIndexed out.indexedToBlock
    out.indexedToLogIndex) ids out.subs
  let saves := if cfg.hasStore then 1 else 0
  if out.hasNewSubscriptions then
    ⟨SMState.running info, subs2, out.queue, [], some 0, saves, tb, true,
      out.dispatched, none⟩
  else
    let subs3 := updateEach (setIndexed tb 0) ids subs2
    let prog := Signal.progress out.indexedToBlock tb out.queue.length
    { state := if atTargetBlock info tb then SMState.stopped
        else SMState.running info
      subs := subs3
      queue := out.queue
      signals := if atTargetBlock info tb then [prog, Signal.stoppedSig]
        else [prog]
      nextPollDelay := if atTargetBlock info tb then none
        else some cfg.pollingIntervalMs
      storeSaves := saves
      targetBlock := tb
      hasNew := false
      dispatched := out.dispatched
      rejected := none }

/-- The catch branch of the tick (lines 237-241): report through the
running state's onError (watch: emit the error signal, stay running,
schedule the next tick; indexToBlock: reject the completion, then stop,
which emits stopped and prevents rescheduling). -/
def pollOnError (cfg : IndexerCfg) (info : RunningInfo) (tb : Int)
    (subs : SubMap) (queue : List QEvent) (e : String) : PollResult :=
  match info.mode with
  | PollMode.watchMode =>
    ⟨SMState.running info, subs, queue, [Signal.errorSig e],
      some cfg.pollingIntervalMs, 0, tb, false, [], none⟩
  | PollMode.indexMode =>
    ⟨SMState.stopped, subs, queue, [Signal.stoppedSig], none, 0, tb,
      false, [], some e⟩

/-- One poll tick (src/indexer.ts lines 140-242).  When the state is not
running the tick is a no-op (line 141). -/
def poll (cfg : IndexerCfg) (or : Oracles) (st : SMState) (subs : SubMap)
    (queue : List QEvent) : PollResult :=
  match st with
  | SMState.running info =>
    match pollProcess cfg or info subs queue with
    | Except.error e =>
      pollOnError cfg info (pollTargetBlock or info)
        (pollFetchedSubs or info subs)
        (pollPlannedQueue or info subs queue) e
    | Except.ok out =>
      pollAfterProcess cfg info (pollTargetBlock or info)
        (subs.map Prod.fst) out
  | _ => ⟨st, subs, queue, [], none, 0, 0, false, [], none⟩

/-- What a watch() call did: the state it left, the signals it emitted,
and the error a synchronous throw escaped with, if any. -/
structure WatchResult where
  state : SMState
  signals : List Signal
  thrown : Option String
deriving DecidableEq

/-- watch (src/indexer.ts lines 391-419).  The body only calls the async
init (whose failure is a promise rejection, not a throw) and chains
then/catch callbacks, so no path throws synchronously: every failure --
init errors and the already-running check inside the then-callback --
reaches the catch-callback and is emitted as an error signal.  The
initResult argument is the outcome of loading the store (init runs only
from the initial state). -/
def watch (st : SMState) (initResult : Except String Unit) : WatchResult :=
  let initOutcome := match st with
    | SMState.initial => initResult
    | _ => Except.ok ()
  match initOutcome with
  | Except.error e => ⟨st, [Signal.errorSig e], none⟩
  | Except.ok _ =>
    match st with
    | SMState.running info =>
      ⟨SMState.running info, [Signal.errorSig "Indexer is already running"],
        none⟩
    | _ =>
      ⟨SMState.running ⟨ToBlock.latest, PollMode.watchMode⟩,
        [Signal.started], none⟩

/-- indexToBlock (src/indexer.ts lines 421-455): an async method, so a
throw is a rejection of the returned promise (the error case here).  Init
runs only from the initial state; a latest target resolves through
getLastBlockNumber; then the state becomes running with the concrete
target and started is emitted. -/
def indexToBlock (st : SMState) (initResult : Except String Unit)
    (target : ToBlock) (lastBlock : Int) :
    Except String (SMState × List Signal) :=
  let initOutcome := match st with
    | SMState.initial => initResult
    | _ => Except.ok ()
  match initOutcome with
  | Except.error e => Except.error e
  | Except.ok _ =>
    match st with
    | SMState.running _ => Except.error "Indexer is already running"
    | _ =>
      let tb := match target with
        | ToBlock.latest => lastBlock
        | ToBlock.block n => n
      Except.ok (SMState.running ⟨ToBlock.block tb, PollMode.indexMode⟩,
        [Signal.started])

/-- What a stop() call did: the state it left, the error it threw (none
when it succeeded), the signals, and whether it cancelled the scheduled
tick and invoked the running state's onStop callback. -/
structure StopResult where
  state : SMState
  err : Option String
  signals : List Signal
  cancelsTick : Bool
  invokesOnStop : Bool
deriving DecidableEq

/-- stop (src/indexer.ts lines 300-314): throws unless running; when
running it clears the poll timeout, emits stopped, invokes onStop and
transitions to stopped. -/
def stopIndexer (st : SMState) : StopResult :=
  match st with
  | SMState.running _ =>
    ⟨SMState.stopped, none, [Signal.stoppedSig], true, true⟩
  | _ => ⟨st, some "Indexer is not running", [], false, false⟩

/-- The key of a contract-read cache entry and of the RPC eth_call
(src/indexer.ts lines 343-372, cache interface getContractRead):
(chainId, address, functionName, blockNumber, data). -/
structure ReadKey where
  chainId : Int
  address : String
  functionName : String
  blockNumber : Int
  data : String
deriving DecidableEq

/-- What a readContract call did: the decoded value it returned, whether
the RPC client was called, and the cache inserts it performed. -/
structure ReadOutcome where
  value : String
  rpcCalled : Bool
  cacheWrites : List (ReadKey × String)
deriving DecidableEq

/-- readContract (src/indexer.ts lines 316-381).  Oracles: encode is
encodeFunctionData on (functionName, args); decode is decodeFunctionResult
on (functionName, bytes); cacheLookup is getContractRead when a cache is
configured (none when not); rpcRead is the RPC client's readContract.
Unknown contract names throw; a cached non-null result is decoded and
returned without calling RPC or writing the cache; otherwise the RPC
result is inserted into the cache (when configured) and decoded; an RPC
failure propagates before any insert. -/
def readContract (contracts : List String) (chainId : Int)
    (encode : String → String → String)
    (decode : String → String → String)
    (cacheLookup : Option (ReadKey → Option String))
    (rpcRead : ReadKey → Except String String)
    (contract : String) (functionName : String) (address : String)
    (blockNumber : Int) (argsData : String) :
    Except String ReadOutcome :=
  if contract ∈ contracts then
    let data := encode functionName argsData
    let key : ReadKey := ⟨chainId, address, functionName, blockNumber, data⟩
    let cached := match cacheLookup with
      | none => none
      | some lk => lk key
    match cached with
    | some result =>
      Except.ok ⟨decode functionName result, false, []⟩
    | none =>
      match rpcRead key with
      | Except.error e => Except.error e
      | Except.ok result =>
        Except.ok ⟨decode functionName result, true,
          match cacheLookup with
          | none => []
          | some _ => [(key, result)]⟩
  else
    Except.error (String.append (String.append "Contract " contract)
      " not found")

/-- Whether two lists of characters occur as a contiguous run (the JS
String.includes the transport uses on provider error messages). -/
def containsRun (needle : List Char) : List Char → Bool
  | [] => needle.isEmpty
  | c :: rest =>
    if needle.isPrefixOf (c :: rest) then true else containsRun needle rest

/-- The provider-message test for the range-too-wide condition
(src rpc getLogs, lines 648-652). -/
def msgRangeTooWide (msg : String) : Bool :=
  containsRun "query returned more than".toList msg.toList ||
    containsRun "Log response size exceeded".toList msg.toList

/-- One raw outcome of an eth_getLogs attempt: logs, a JsonRpcError whose
optional error object carries a message, or another failure. -/
inductive RpcAttempt where
  | ok : List Log → RpcAttempt
  | jsonRpcErr : Option String → RpcAttempt
  | otherErr : String → RpcAttempt
deriving DecidableEq

/-- The errors getLogs can settle with after classification. -/
inductive GetLogsError where
  | rangeTooWide : Option String → GetLogsError
  | jsonRpc : Option String → GetLogsError
  | other : String → GetLogsError
deriving DecidableEq

/-- The catch block inside the retried getLogs thunk (lines 645-657): a
JsonRpcError whose error message includes one of the two provider phrases
becomes the distinguished JsonRpcRangeTooWideError; everything else is
rethrown unchanged. -/
def classifyAttempt : RpcAttempt → Except GetLogsError (List Log)
  | RpcAttempt.ok logs => Except.ok logs
  | RpcAttempt.jsonRpcErr m =>
    match m with
    | some msg =>
      if msgRangeTooWide msg then Except.error (GetLogsError.rangeTooWide m)
      else Except.error (GetLogsError.jsonRpc m)
    | none => Except.error (GetLogsError.jsonRpc none)
  | RpcAttempt.otherErr t => Except.error (GetLogsError.other t)

/-- The shouldRetry predicate getLogs configures (lines 661-668): never
retry the range-too-wide error, retry everything else. -/
def shouldRetryGetLogs : GetLogsError → Bool
  | GetLogsError.rangeTooWide _ => false
  | _ => true

/-- A finished retry run: its result, how many attempts were made, and the
delays slept between consecutive attempts. -/
structure RetryTrace where
  result : Except GetLogsError (List Log)
  attempts : Nat
  delays : List Nat

/-- Modelled from the spec: the retry helper of the retry module (not
under src/): run the attempt; on a failure the predicate allows, sleep
delayMs and try again, at most maxRetries more times (the fuel); surface
the last error otherwise. -/
def retryRun (attempt : Nat → Except GetLogsError (List Log))
    (shouldRetry : GetLogsError → Bool) (delayMs : Nat) (i : Nat) :
    Nat → RetryTrace
  | 0 =>
    match attempt i with
    | Except.ok a => ⟨Except.ok a, 1, []⟩
    | Except.error e => ⟨Except.error e, 1, []⟩
  | fuel + 1 =>
    match attempt i with
    | Except.ok a => ⟨Except.ok a, 1, []⟩
    | Except.error e =>
      if shouldRetry e then
        let t := retryRun attempt shouldRetry delayMs (i + 1) fuel
        ⟨t.result, t.attempts + 1, delayMs :: t.delays⟩
      else ⟨Except.error e, 1, []⟩

/-- The standard transport's getLogs (src rpc, lines 622-672): the
classified attempt is retried with maxRetries 5, delay 1000 ms, and the
range-too-wide-excluding predicate.  The rawAttempts oracle gives the raw
outcome of the n-th network attempt. -/
def getLogsRpc (rawAttempts : Nat → RpcAttempt) : RetryTrace :=
  retryRun (fun i => classifyAttempt (rawAttempts i)) shouldRetryGetLogs
    1000 0 5

theorem mapGet_updateSubscription_pres {Q : Subscription → Prop}
    (m : SubMap) (i : String) (f : Subscription → Subscription)
    (hf : ∀ s, Q s → Q (f s))
    (h0 : ∀ k s, mapGet m k = some s → Q s) :
    ∀ k s, mapGet (updateSubscription m i f) k = some s → Q s := by
  intro k s h
  rw [mapGet_updateSubscription] at h
  by_cases hk : k = i
  · rw [if_pos hk] at h
    obtain ⟨s0, hs0, hfs⟩ := Option.map_eq_some'.mp h
    rw [← hfs]
    exact hf s0 (h0 i s0 hs0)
  · rw [if_neg hk] at h
    exact h0 k s h

theorem drainEvents_false_pres {Q : Subscription → Prop}
    (contracts : List String) (ga : String → String) (tb : Int)
    (ns : QEvent → List SubscribeOptions) (dok : QEvent → Bool)
    (hQ : ∀ b l s, Q s → Q (setIndexed b l s)) :
    ∀ (queue : List QEvent) (subs : SubMap) (disp : List QEvent)
      (d : DrainResult),
      drainEvents contracts ga tb ns dok subs queue disp = Except.ok d →
      d.hasNewSubscriptions = false →
      (∀ k s, mapGet subs k = some s → Q s) →
      ∀ k s, mapGet d.subs k = some s → Q s := by
  intro queue
  induction queue with
  | nil =>
    intro subs disp d h hflag h0
    rw [drainEvents] at h
    injection h with h'
    rw [← h']
    exact h0
  | cons e rest ih =>
    intro subs disp d h hflag h0
    rw [drainEvents] at h
    split at h
    · injection h with h'
      rw [← h']
      exact h0
    · split at h
      · exact ih subs disp d h hflag h0
      · split at h
        · exact ih subs disp d h hflag h0
        · split at h
          · split at h
            · exact absurd h (by simp)
            · rename_i subsA hA
              split at h
              · rename_i hEmp
                rw [List.isEmpty_iff.mp hEmp] at hA
                rw [addSubs] at hA
                injection hA with hA'
                rw [← hA'] at h
                exact ih _ _ d h hflag
                  (mapGet_updateSubscription_pres _ _ _
                    (fun s hs => hQ _ _ s hs) h0)
              · injection h with h'
                rw [← h'] at hflag
                exact absurd hflag (by simp)
          · exact ih subs disp d h hflag h0

theorem drainEvents_false_isSome (contracts : List String)
    (ga : String → String) (tb : Int)
    (ns : QEvent → List SubscribeOptions) (dok : QEvent → Bool) :
    ∀ (queue : List QEvent) (subs : SubMap) (disp : List QEvent)
      (d : DrainResult),
      drainEvents contracts ga tb ns dok subs queue disp = Except.ok d →
      d.hasNewSubscriptions = false →
      ∀ k, (mapGet d.subs k).isSome = true → (mapGet subs k).isSome = true := by
  intro queue
  induction queue with
  | nil =>
    intro subs disp d h hflag k
    rw [drainEvents] at h
    injection h with h'
    rw [← h']
    exact fun hk => hk
  | cons e rest ih =>
    intro subs disp d h hflag k
    rw [drainEvents] at h
    split at h
    · injection h with h'
      rw [← h']
      exact fun hk => hk
    · split at h
      · exact ih subs disp d h hflag k
      · split at h
        · exact ih subs disp d h hflag k
        · split at h
          · split at h
            · exact absurd h (by simp)
            · rename_i subsA hA
              split at h
              · rename_i hEmp
                rw [List.isEmpty_iff.mp hEmp] at hA
                rw [addSubs] at hA
                injection hA with hA'
                rw [← hA'] at h
                intro hk
                have := ih _ _ d h hflag k hk
                rw [mapGet_updateSubscription_isSome] at this
                exact this
              · injection h with h'
                rw [← h'] at hflag
                exact absurd hflag (by simp)
          · exact ih subs disp d h hflag k

theorem processEvents_ok_drain (contracts : List String)
    (ga : String → String) (tb : Int)
    (ns : QEvent → List SubscribeOptions) (dok : QEvent → Bool)
    (subs : SubMap) (queue : List QEvent) (out : ProcessOutcome)
    (h : processEvents contracts ga tb ns dok subs queue = Except.ok out) :
    drainEvents contracts ga tb ns dok subs queue [] =
      Except.ok ⟨out.subs, out.queue, out.hasNewSubscriptions,
        out.dispatched⟩ ∧
    out.indexedToBlock = (watermark tb out.subs).1 ∧
    out.indexedToLogIndex = (watermark tb out.subs).2 := by
  unfold processEvents at h
  cases hd : drainEvents contracts ga tb ns dok subs queue [] with
  | error e =>
    rw [hd] at h
    exact absurd h (by simp)
  | ok d =>
    rw [hd] at h
    injection h with h'
    rw [← h']
    exact ⟨rfl, rfl, rfl⟩

theorem poll_running_ok (cfg : IndexerCfg) (or : Oracles)
    (info : RunningInfo) (subs : SubMap) (queue : List QEvent)
    (out : ProcessOutcome)
    (h1 : pollProcess cfg or info subs queue = Except.ok out) :
    poll cfg or (SMState.running info) subs queue =
      pollAfterProcess cfg info (pollTargetBlock or info)
        (subs.map Prod.fst) out := by
  have hstep : poll cfg or (SMState.running info) subs queue =
      match pollProcess cfg or info subs queue with
      | Except.error e =>
        pollOnError cfg info (pollTargetBlock or info)
          (pollFetchedSubs or info subs)
          (pollPlannedQueue or info subs queue) e
      | Except.ok out =>
        pollAfterProcess cfg info (pollTargetBlock or info)
          (subs.map Prod.fst) out := rfl
  rw [hstep, h1]

theorem pollAfterProcess_subs_false (cfg : IndexerCfg) (info : RunningInfo)
    (tb : Int) (ids : List String) (out : ProcessOutcome)
    (h2 : out.hasNewSubscriptions = false) :
    (pollAfterProcess cfg info tb ids out).subs =
      updateEach (setIndexed tb 0) ids
        (updateEach (setIndexed out.indexedToBlock out.indexedToLogIndex)
          ids out.subs) := by
  unfold pollAfterProcess
  rw [h2, if_neg Bool.false_ne_true]

theorem pollAfterProcess_signals_count (cfg : IndexerCfg)
    (info : RunningInfo) (tb : Int) (ids : List String)
    (out : ProcessOutcome) (h2 : out.hasNewSubscriptions = false) :
    (pollAfterProcess cfg info tb ids out).signals.countP isProgressSig = 1 ∧
    Signal.progress out.indexedToBlock tb out.queue.length ∈
      (pollAfterProcess cfg info tb ids out).signals := by
  unfold pollAfterProcess
  rw [h2, if_neg Bool.false_ne_true]
  by_cases hat : atTargetBlock info tb = true
  · exact ⟨by simp [hat, List.countP_cons, isProgressSig], by simp [hat]⟩
  · exact ⟨by simp [hat, List.countP_cons, isProgressSig], by simp [hat]⟩

theorem initSubscriptions_inv {P : String → Subscription → Prop}
    (contracts : List String) (ga : String → String)
    (hP : ∀ o, P (ga o.address) (buildSubscription ga o)) :
    ∀ (stored : List StoredSubscription) (m0 m : SubMap),
      (∀ k s, mapGet m0 k = some s → P k s) →
      initSubscriptions contracts ga m0 stored = Except.ok m →
      ∀ k s, mapGet m k = some s → P k s := by
  intro stored
  induction stored with
  | nil =>
    intro m0 m h0 h
    rw [initSubscriptions] at h
    injection h with h'
    rw [← h']
    exact h0
  | cons st rest ih =>
    intro m0 m h0 h
    rw [initSubscriptions] at h
    split at h
    · exact absurd h (by simp)
    · rename_i m2 heq
      refine ih m2 m ?_ h
      unfold subscribeToContract at heq
      split at heq
      · injection heq with heq'
        intro k s hks
        rw [← heq'] at hks
        rcases mapGet_mapSet_cases _ _ _ _ _ hks with ⟨hk, hs⟩ | hm
        · rw [hk, hs]
          exact hP (storedToOptions st)
        · exact h0 k s hm
      · exact absurd heq (by simp)

/-- Claim C4 counterexample: calling watch() on a stopped indexer brings
it back to running and emits started, so the stopped state is not
terminal as the claim states. -/
theorem watch_restarts_from_stopped_cex :
    watch SMState.stopped (Except.ok ()) =
      ⟨SMState.running ⟨ToBlock.latest, PollMode.watchMode⟩,
        [Signal.started], none⟩ := rfl

/-- Claim C4 (amended): the lifecycle methods reject a call only while the
indexer is running (watch through an error signal, indexToBlock through a
rejection); from both initial and stopped they transition to running, so a
fresh indexer is not required after stop. -/
theorem lifecycle_rejects_only_running :
    (∀ i, watch SMState.stopped i =
      ⟨SMState.running ⟨ToBlock.latest, PollMode.watchMode⟩,
        [Signal.started], none⟩) ∧
    (∀ i n lb, indexToBlock SMState.stopped i (ToBlock.block n) lb =
      Except.ok (SMState.running ⟨ToBlock.block n, PollMode.indexMode⟩,
        [Signal.started])) ∧
    (∀ info i, watch (SMState.running info) i =
      ⟨SMState.running info,
        [Signal.errorSig "Indexer is already running"], none⟩) ∧
    (∀ info i t lb, indexToBlock (SMState.running info) i t lb =
      Except.error "Indexer is already running") :=
  ⟨fun _ => rfl, fun _ _ _ => rfl, fun _ _ => rfl, fun _ _ _ _ => rfl⟩

/-- Claim C8: stop() from the running state cancels the scheduled tick,
emits stopped, invokes the running state's onStop callback and moves to
stopped; from initial or stopped it throws "Indexer is not running" and
leaves the state unchanged. -/
theorem stop_only_from_running :
    (∀ info, stopIndexer (SMState.running info) =
      ⟨SMState.stopped, none, [Signal.stoppedSig], true, true⟩) ∧
    stopIndexer SMState.initial =
      ⟨SMState.initial, some "Indexer is not running", [], false, false⟩ ∧
    stopIndexer SMState.stopped =
      ⟨SMState.stopped, some "Indexer is not running", [], false, false⟩ :=
  ⟨fun _ => rfl, rfl, rfl⟩

/-- Claim C10: watch() never throws synchronously in any state; an init
failure and the already-running condition both surface as error signals,
whereas indexToBlock rejects (the Except error) when already running. -/
theorem watch_async_error_delivery :
    (∀ st i, (watch st i).thrown = none) ∧
    (∀ e, watch SMState.initial (Except.error e) =
      ⟨SMState.initial, [Signal.errorSig e], none⟩) ∧
    (∀ info i, watch (SMState.running info) i =
      ⟨SMState.running info,
        [Signal.errorSig "Indexer is already running"], none⟩) ∧
    (∀ info i t lb, indexToBlock (SMState.running info) i t lb =
      Except.error "Indexer is already running") := by
  refine ⟨?_, fun _ => rfl, fun _ _ => rfl, fun _ _ _ _ => rfl⟩
  intro st i
  cases st with
  | initial => cases i <;> rfl
  | running info => rfl
  | stopped => rfl

/-- Claim C3 counterexample: subscribing with the caller-supplied id
option "custom" inserts the subscription under the checksummed address,
not under "custom" -- the id option is ignored, not merely defaulted. -/
theorem subscribe_custom_id_ignored_cex :
    subscribeToContract ["Token"] (fun a => String.append "CHK" a) []
      ⟨"Token", "0xabc", none, none, none, none, some "custom"⟩ =
      Except.ok [("CHK0xabc", buildSubscription
        (fun a => String.append "CHK" a)
        ⟨"Token", "0xabc", none, none, none, none, some "custom"⟩)] ∧
    mapGet [("CHK0xabc", buildSubscription
        (fun a => String.append "CHK" a)
        ⟨"Token", "0xabc", none, none, none, none, some "custom"⟩)]
      "custom" = none :=
  ⟨rfl, rfl⟩

/-- Claim C3 (amended): subscribeToContract always inserts the built
subscription under the checksummed contract address, ignoring the id
option entirely; all other keys are untouched, so re-subscribing to the
same address overwrites the earlier subscription. -/
theorem subscribe_inserts_under_checksummed_address
    (contracts : List String) (ga : String → String) (subs : SubMap)
    (o : SubscribeOptions) (m : SubMap)
    (h : subscribeToContract contracts ga subs o = Except.ok m) :
    mapGet m (ga o.address) = some (buildSubscription ga o) ∧
    ∀ k, k ≠ ga o.address → mapGet m k = mapGet subs k := by
  unfold subscribeToContract at h
  split at h
  · injection h with h'
    rw [← h']
    exact ⟨mapGet_mapSet_self _ _ _,
      fun k hk => mapGet_mapSet_ne _ _ _ _ hk⟩
  · exact absurd h (by simp)

def gaChk : String → String := fun a => String.append "CHK" a

def optsC3 : SubscribeOptions :=
  ⟨"Token", "0xabc", none, none, none, none, some "custom"⟩

def resC3 : SubMap := [("CHK0xabc", buildSubscription gaChk optsC3)]

theorem subscribe_inserts_under_checksummed_address_witness :
    subscribeToContract ["Token"] gaChk [] optsC3 = Except.ok resC3 ∧
    (mapGet resC3 (gaChk optsC3.address) =
        some (buildSubscription gaChk optsC3) ∧
      ∀ k, k ≠ gaChk optsC3.address →
        mapGet resC3 k = mapGet ([] : SubMap) k) :=
  ⟨rfl,
    subscribe_inserts_under_checksummed_address ["Token"] gaChk [] optsC3
      resC3 rfl⟩

/-- Claim C9: every subscription subscribeToContract inserts -- also the
ones init rebuilds from the store -- has indexedToLogIndex 0 and
fetchedToBlock -1 and sits under the checksummed address as key; in
particular the persisted indexedToLogIndex (forwarded as the fromLogIndex
option) and the persisted id are not used. -/
theorem subscription_defaults_and_key :
    (∀ (contracts : List String) (ga : String → String) (subs m : SubMap)
        (o : SubscribeOptions),
      subscribeToContract contracts ga subs o = Except.ok m →
      mapGet m (ga o.address) = some (buildSubscription ga o) ∧
      (buildSubscription ga o).indexedToLogIndex = 0 ∧
      (buildSubscription ga o).fetchedToBlock = -1 ∧
      (buildSubscription ga o).id = ga o.address) ∧
    (∀ (contracts : List String) (ga : String → String)
        (stored : List StoredSubscription) (m : SubMap),
      initSubscriptions contracts ga [] stored = Except.ok m →
      ∀ k s, mapGet m k = some s →
        s.indexedToLogIndex = 0 ∧ s.fetchedToBlock = -1 ∧
        k = s.contractAddress) := by
  constructor
  · intro contracts ga subs m o h
    unfold subscribeToContract at h
    split at h
    · injection h with h'
      rw [← h']
      exact ⟨mapGet_mapSet_self _ _ _, rfl, rfl, rfl⟩
    · exact absurd h (by simp)
  · intro contracts ga stored m h
    refine initSubscriptions_inv contracts ga ?_ stored [] m ?_ h
    · intro o
      exact ⟨rfl, rfl, rfl⟩
    · intro k s hks
      exact absurd hks (by simp [mapGet])

def gaId : String → String := fun a => a

def storedC9 : StoredSubscription :=
  ⟨"0xA", "C", "0xA", 0, ToBlock.latest, 42, 7⟩

def mapC9 : SubMap :=
  [("0xA", ⟨"0xA", "C", "0xA", 0, ToBlock.latest, 42, -1, 0⟩)]

def optsC9 : SubscribeOptions := ⟨"C", "0xB", none, none, some 9, none, some "z"⟩

theorem subscription_defaults_and_key_witness :
    (subscribeToContract ["C"] gaId [] optsC9 =
        Except.ok [("0xB", buildSubscription gaId optsC9)] ∧
      (mapGet [("0xB", buildSubscription gaId optsC9)] (gaId optsC9.address) =
          some (buildSubscription gaId optsC9) ∧
        (buildSubscription gaId optsC9).indexedToLogIndex = 0 ∧
        (buildSubscription gaId optsC9).fetchedToBlock = -1 ∧
        (buildSubscription gaId optsC9).id = gaId optsC9.address)) ∧
    (initSubscriptions ["C"] gaId [] [storedC9] = Except.ok mapC9 ∧
      ∀ k s, mapGet mapC9 k = some s →
        s.indexedToLogIndex = 0 ∧ s.fetchedToBlock = -1 ∧
        k = s.contractAddress) :=
  ⟨⟨rfl, subscription_defaults_and_key.1 ["C"] gaId []
      [("0xB", buildSubscription gaId optsC9)] optsC9 rfl⟩,
    ⟨rfl, subscription_defaults_and_key.2 ["C"] gaId [storedC9] mapC9 rfl⟩⟩

/-- Claim C1 counterexample: one subscription with concrete toBlock 5,
concrete tick target 10 and no logs at all; after the completed tick the
subscription's cursors stand at (10, 0) -- past its own toBlock, so the
claimed bound indexedToBlock ≤ toBlock fails. -/
def cfgC1 : IndexerCfg := ⟨["C"], gaId, false, 1000⟩

def orC1 : Oracles := ⟨10, fun _ _ _ => [], fun _ => [], fun _ => true⟩

def optsC1 : SubscribeOptions :=
  ⟨"C", "0xA", none, none, none, some (ToBlock.block 5), none⟩

def subsC1 : SubMap := [("0xA", buildSubscription gaId optsC1)]

def infoC1 : RunningInfo := ⟨ToBlock.block 10, PollMode.indexMode⟩

def subC1final : Subscription :=
  ⟨"0xA", "C", "0xA", 0, ToBlock.block 5, 10, 10, 0⟩

theorem poll_advances_past_toBlock_cex :
    mapGet (poll cfgC1 orC1 (SMState.running infoC1) subsC1 []).subs "0xA" =
      some subC1final ∧
    subC1final.toBlock = ToBlock.block 5 ∧
    pollTargetBlock orC1 infoC1 = 10 ∧
    ¬ (subC1final.indexedToBlock ≤ 5) :=
  ⟨rfl, rfl, rfl, by decide⟩

/-- Claim C1 (amended): after a completed tick (processor resolved,
hasNewSubscriptions false) every subscription in the map has
indexedToBlock = fetchedToBlock = targetBlock -- hence
indexedToBlock ≤ fetchedToBlock ≤ targetBlock -- but the claim's further
bound indexedToBlock ≤ toBlock does not hold: a subscription whose
concrete toBlock lies below targetBlock also gets its cursors set to
(targetBlock, 0). -/
theorem completed_tick_cursor_equality (cfg : IndexerCfg) (or : Oracles)
    (info : RunningInfo) (subs : SubMap) (queue : List QEvent)
    (out : ProcessOutcome)
    (h1 : pollProcess cfg or info subs queue = Except.ok out)
    (h2 : out.hasNewSubscriptions = false) :
    ∀ k s,
      mapGet (poll cfg or (SMState.running info) subs queue).subs k =
        some s →
      s.indexedToBlock = pollTargetBlock or info ∧
      s.fetchedToBlock = pollTargetBlock or info := by
  intro k s hks
  rw [poll_running_ok cfg or info subs queue out h1,
    pollAfterProcess_subs_false cfg info (pollTargetBlock or info)
      (subs.map Prod.fst) out h2] at hks
  have hdrain := processEvents_ok_drain cfg.contracts cfg.ga
    (pollTargetBlock or info) or.newSubsOf or.decodeOk
    (pollFetchedSubs or info subs) (pollPlannedQueue or info subs queue)
    out h1
  by_cases hkid : k ∈ subs.map Prod.fst
  · constructor
    · exact mapGet_updateEach_mem
        (P := fun s => s.indexedToBlock = pollTargetBlock or info)
        (setIndexed (pollTargetBlock or info) 0)
        (fun s => rfl) (subs.map Prod.fst) _ k s hkid hks
    · have hfetched0 : ∀ k s,
          mapGet (pollFetchedSubs or info subs) k = some s →
          s.fetchedToBlock = pollTargetBlock or info := by
        intro k' s' h'
        unfold pollFetchedSubs at h'
        by_cases hk' : k' ∈ subs.map Prod.fst
        · exact mapGet_updateEach_mem
            (P := fun s => s.fetchedToBlock = pollTargetBlock or info)
            (setFetched (pollTargetBlock or info)) (fun s => rfl)
            (subs.map Prod.fst) subs k' s' hk' h'
        · rw [mapGet_updateEach_not_mem _ _ _ _ hk'] at h'
          exact absurd (mapGet_mem_keys _ _ _ h') hk'
      have hfetched1 : ∀ k s, mapGet out.subs k = some s →
          s.fetchedToBlock = pollTargetBlock or info :=
        drainEvents_false_pres cfg.contracts cfg.ga
          (pollTargetBlock or info) or.newSubsOf or.decodeOk
          (fun _ _ _ hs => hs) _ _ _ _ hdrain.1 h2 hfetched0
      have hfetched2 : ∀ k s,
          mapGet (updateEach
            (setIndexed out.indexedToBlock out.indexedToLogIndex)
            (subs.map Prod.fst) out.subs) k = some s →
          s.fetchedToBlock = pollTargetBlock or info :=
        mapGet_updateEach_pres
          (Q := fun s => s.fetchedToBlock = pollTargetBlock or info)
          (setIndexed out.indexedToBlock out.indexedToLogIndex)
          (fun _ hs => hs) _ _ hfetched1
      exact mapGet_updateEach_pres
        (Q := fun s => s.fetchedToBlock = pollTargetBlock or info)
        (setIndexed (pollTargetBlock or info) 0)
        (fun _ hs => hs) _ _ hfetched2 k s hks
  · exfalso
    rw [mapGet_updateEach_not_mem _ _ _ _ hkid,
      mapGet_updateEach_not_mem _ _ _ _ hkid] at hks
    have hsome : (mapGet out.subs k).isSome = true := by
      rw [hks]; rfl
    have := drainEvents_false_isSome cfg.contracts cfg.ga
      (pollTargetBlock or info) or.newSubsOf or.decodeOk
      _ _ _ _ hdrain.1 h2 k hsome
    unfold pollFetchedSubs at this
    rw [mapGet_updateEach_isSome] at this
    obtain ⟨s0, hs0⟩ := Option.isSome_iff_exists.mp this
    exact hkid (mapGet_mem_keys subs k s0 hs0)

def procDefault : ProcessOutcome := ⟨[], [], 0, 0, false, []⟩

def outC1 : ProcessOutcome :=
  (pollProcess cfgC1 orC1 infoC1 subsC1 []).toOption.getD procDefault

theorem completed_tick_cursor_equality_witness :
    pollProcess cfgC1 orC1 infoC1 subsC1 [] = Except.ok outC1 ∧
    outC1.hasNewSubscriptions = false ∧
    ∀ k s,
      mapGet (poll cfgC1 orC1 (SMState.running infoC1) subsC1 []).subs k =
        some s →
      s.indexedToBlock = pollTargetBlock orC1 infoC1 ∧
      s.fetchedToBlock = pollTargetBlock orC1 infoC1 :=
  ⟨rfl, rfl,
    completed_tick_cursor_equality cfgC1 orC1 infoC1 subsC1 [] outC1
      rfl rfl⟩

/-- Claim C2 scenario: one subscription from block 0 on contract ERC20,
concrete target 100, logs at (10,0), (20,0), (20,1). -/
def cfgC2 : IndexerCfg := ⟨["ERC20"], gaId, false, 1000⟩

def orC2 : Oracles :=
  ⟨100, fun _ _ _ => [⟨10, 0⟩, ⟨20, 0⟩, ⟨20, 1⟩], fun _ => [],
    fun _ => true⟩

def optsC2 : SubscribeOptions :=
  ⟨"ERC20", "0xA", none, none, none, none, none⟩

def subsC2 : SubMap := [("0xA", buildSubscription gaId optsC2)]

def infoC2 : RunningInfo := ⟨ToBlock.block 100, PollMode.indexMode⟩

/-- Claim C2 counterexample: in the single-subscription full catch-up tick
to concrete target 100 the progress signal is emitted once but carries
currentBlock 20 (the processor watermark: the block of the last dispatched
event), not the target 100 the claim states. -/
theorem progress_currentBlock_not_target_cex :
    (poll cfgC2 orC2 (SMState.running infoC2) subsC2 []).signals =
      [Signal.progress 20 100 0, Signal.stoppedSig] ∧
    Signal.progress 100 100 0 ∉
      (poll cfgC2 orC2 (SMState.running infoC2) subsC2 []).signals :=
  ⟨rfl, by decide⟩

/-- Claim C2 (amended): in a completed tick the progress signal is emitted
exactly once and carries targetBlock and the pending-event count, but its
currentBlock is the processor's returned watermark (the min indexed
cursor across subscriptions after the drain), not the target block. -/
theorem progress_emitted_once_with_watermark (cfg : IndexerCfg)
    (or : Oracles) (info : RunningInfo) (subs : SubMap)
    (queue : List QEvent) (out : ProcessOutcome)
    (h1 : pollProcess cfg or info subs queue = Except.ok out)
    (h2 : out.hasNewSubscriptions = false) :
    (poll cfg or (SMState.running info) subs queue).signals.countP
      isProgressSig = 1 ∧
    Signal.progress out.indexedToBlock (pollTargetBlock or info)
        out.queue.length ∈
      (poll cfg or (SMState.running info) subs queue).signals := by
  rw [poll_running_ok cfg or info subs queue out h1]
  exact pollAfterProcess_signals_count cfg info (pollTargetBlock or info)
    (subs.map Prod.fst) out h2

def outC2 : ProcessOutcome :=
  (pollProcess cfgC2 orC2 infoC2 subsC2 []).toOption.getD procDefault

theorem progress_emitted_once_with_watermark_witness :
    pollProcess cfgC2 orC2 infoC2 subsC2 [] = Except.ok outC2 ∧
    outC2.hasNewSubscriptions = false ∧
    ((poll cfgC2 orC2 (SMState.running infoC2) subsC2 []).signals.countP
        isProgressSig = 1 ∧
      Signal.progress outC2.indexedToBlock (pollTargetBlock orC2 infoC2)
          outC2.queue.length ∈
        (poll cfgC2 orC2 (SMState.running infoC2) subsC2 []).signals) :=
  ⟨rfl, rfl,
    progress_emitted_once_with_watermark cfgC2 orC2 infoC2 subsC2 [] outC2
      rfl rfl⟩

/-- Claim C7: a tick whose processor reports hasNewSubscriptions persists
the subscriptions exactly when a store is configured, schedules the next
poll at delay 0 and returns at once: it emits no signal (no progress, no
stopped), stays running even when the resolved target equals the
configured concrete target, and leaves the snapshotted subscriptions'
cursors at the processor watermark instead of targetBlock. -/
theorem hasNewSubscriptions_tick_behavior (cfg : IndexerCfg) (or : Oracles)
    (info : RunningInfo) (subs : SubMap) (queue : List QEvent)
    (out : ProcessOutcome)
    (h1 : pollProcess cfg or info subs queue = Except.ok out)
    (h2 : out.hasNewSubscriptions = true) :
    (poll cfg or (SMState.running info) subs queue).signals = [] ∧
    (poll cfg or (SMState.running info) subs queue).nextPollDelay =
      some 0 ∧
    (poll cfg or (SMState.running info) subs queue).storeSaves =
      (if cfg.hasStore then 1 else 0) ∧
    (poll cfg or (SMState.running info) subs queue).state =
      SMState.running info ∧
    (poll cfg or (SMState.running info) subs queue).subs =
      updateEach (setIndexed out.indexedToBlock out.indexedToLogIndex)
        (subs.map Prod.fst) out.subs := by
  rw [poll_running_ok cfg or info subs queue out h1]
  unfold pollAfterProcess
  rw [h2, if_pos rfl]
  exact ⟨rfl, rfl, rfl, rfl, rfl⟩

/-- Claim C7 scenario: one subscription on 0xA with one log at (10, 0)
whose handler subscribes to 0xB; the configured target is the concrete
block 50, which the tick reaches, yet it must not stop. -/
def optsC7 : SubscribeOptions := ⟨"C", "0xA", none, none, none, none, none⟩

def optsC7new : SubscribeOptions :=
  ⟨"C", "0xB", none, none, none, none, none⟩

def cfgC7 : IndexerCfg := ⟨["C"], gaId, true, 1000⟩

def orC7 : Oracles :=
  ⟨50, fun a _ _ => if a = "0xA" then [⟨10, 0⟩] else [],
    fun _ => [optsC7new], fun _ => true⟩

def subsC7 : SubMap := [("0xA", buildSubscription gaId optsC7)]

def infoC7 : RunningInfo := ⟨ToBlock.block 50, PollMode.indexMode⟩

def outC7 : ProcessOutcome :=
  (pollProcess cfgC7 orC7 infoC7 subsC7 []).toOption.getD procDefault

theorem hasNewSubscriptions_tick_behavior_witness :
    pollProcess cfgC7 orC7 infoC7 subsC7 [] = Except.ok outC7 ∧
    outC7.hasNewSubscriptions = true ∧
    ((poll cfgC7 orC7 (SMState.running infoC7) subsC7 []).signals = [] ∧
      (poll cfgC7 orC7 (SMState.running infoC7) subsC7 []).nextPollDelay =
        some 0 ∧
      (poll cfgC7 orC7 (SMState.running infoC7) subsC7 []).storeSaves =
        (if cfgC7.hasStore then 1 else 0) ∧
      (poll cfgC7 orC7 (SMState.running infoC7) subsC7 []).state =
        SMState.running infoC7 ∧
      (poll cfgC7 orC7 (SMState.running infoC7) subsC7 []).subs =
        updateEach (setIndexed outC7.indexedToBlock outC7.indexedToLogIndex)
          (subsC7.map Prod.fst) outC7.subs) :=
  ⟨rfl, rfl,
    hasNewSubscriptions_tick_behavior cfgC7 orC7 infoC7 subsC7 [] outC7
      rfl rfl⟩

/-- Claim C5: readContract is cache-through.  With a cache configured, a
non-null getContractRead hit returns the decoded cached bytes without
calling RPC and without any cache write; a miss calls RPC, inserts the
result under the same key and returns the decoded RPC bytes; an RPC
failure propagates and insertContractRead is never invoked (no write is
recorded on the error path). -/
theorem readContract_cache_through (contracts : List String)
    (chainId : Int) (encode decode : String → String → String)
    (lk : ReadKey → Option String)
    (rpcRead : ReadKey → Except String String)
    (c fn addr : String) (bn : Int) (argsData : String)
    (hc : c ∈ contracts) :
    (∀ v, lk ⟨chainId, addr, fn, bn, encode fn argsData⟩ = some v →
      readContract contracts chainId encode decode (some lk) rpcRead
        c fn addr bn argsData = Except.ok ⟨decode fn v, false, []⟩) ∧
    (∀ r, lk ⟨chainId, addr, fn, bn, encode fn argsData⟩ = none →
      rpcRead ⟨chainId, addr, fn, bn, encode fn argsData⟩ = Except.ok r →
      readContract contracts chainId encode decode (some lk) rpcRead
        c fn addr bn argsData =
        Except.ok ⟨decode fn r, true,
          [(⟨chainId, addr, fn, bn, encode fn argsData⟩, r)]⟩) ∧
    (∀ e, lk ⟨chainId, addr, fn, bn, encode fn argsData⟩ = none →
      rpcRead ⟨chainId, addr, fn, bn, encode fn argsData⟩ =
        Except.error e →
      readContract contracts chainId encode decode (some lk) rpcRead
        c fn addr bn argsData = Except.error e) := by
  refine ⟨?_, ?_, ?_⟩
  · intro v hv
    unfold readContract
    rw [if_pos hc]
    simp only [hv]
  · intro r hmiss hrpc
    unfold readContract
    rw [if_pos hc]
    simp only [hmiss, hrpc]
  · intro e hmiss hrpc
    unfold readContract
    rw [if_pos hc]
    simp only [hmiss, hrpc]

def lkC5 : ReadKey → Option String :=
  fun key => if key.blockNumber = 7 then some "0xcafe" else none

def rpcReadC5 : ReadKey → Except String String :=
  fun key =>
    if key.blockNumber = 9 then Except.error "eth_call reverted"
    else Except.ok "0xbeef"

def encC5 : String → String → String :=
  fun fn a => String.append fn a

def decC5 : String → String → String :=
  fun fn r => String.append r fn

theorem readContract_cache_through_witness :
    "T" ∈ ["T"] ∧
    lkC5 ⟨1, "0xA", "f", 7, encC5 "f" "args"⟩ = some "0xcafe" ∧
    readContract ["T"] 1 encC5 decC5 (some lkC5) rpcReadC5
      "T" "f" "0xA" 7 "args" =
      Except.ok ⟨decC5 "f" "0xcafe", false, []⟩ ∧
    lkC5 ⟨1, "0xA", "f", 8, encC5 "f" "args"⟩ = none ∧
    rpcReadC5 ⟨1, "0xA", "f", 8, encC5 "f" "args"⟩ = Except.ok "0xbeef" ∧
    readContract ["T"] 1 encC5 decC5 (some lkC5) rpcReadC5
      "T" "f" "0xA" 8 "args" =
      Except.ok ⟨decC5 "f" "0xbeef", true,
        [(⟨1, "0xA", "f", 8, encC5 "f" "args"⟩, "0xbeef")]⟩ ∧
    rpcReadC5 ⟨1, "0xA", "f", 9, encC5 "f" "args"⟩ =
      Except.error "eth_call reverted" ∧
    readContract ["T"] 1 encC5 decC5 (some lkC5) rpcReadC5
      "T" "f" "0xA" 9 "args" = Except.error "eth_call reverted" :=
  ⟨by decide, rfl,
    (readContract_cache_through ["T"] 1 encC5 decC5 lkC5 rpcReadC5
      "T" "f" "0xA" 7 "args" (by decide)).1 "0xcafe" rfl,
    rfl, rfl,
    (readContract_cache_through ["T"] 1 encC5 decC5 lkC5 rpcReadC5
      "T" "f" "0xA" 8 "args" (by decide)).2.1 "0xbeef" rfl rfl,
    rfl,
    (readContract_cache_through ["T"] 1 encC5 decC5 lkC5 rpcReadC5
      "T" "f" "0xA" 9 "args" (by decide)).2.2 "eth_call reverted" rfl rfl⟩

theorem retryRun_attempts_le (a : Nat → Except GetLogsError (List Log))
    (sr : GetLogsError → Bool) (d : Nat) :
    ∀ (fuel i : Nat), (retryRun a sr d i fuel).attempts ≤ fuel + 1 := by
  intro fuel
  induction fuel with
  | zero =>
    intro i
    rw [retryRun]
    cases a i <;> simp
  | succ n ih =>
    intro i
    rw [retryRun]
    cases ha : a i with
    | ok v => simp
    | error e =>
      by_cases hsr : sr e = true
      · simp only [hsr, if_true]
        exact Nat.succ_le_succ (ih (i + 1))
      · simp [hsr]

theorem retryRun_attempts_pos (a : Nat → Except GetLogsError (List Log))
    (sr : GetLogsError → Bool) (d : Nat) (fuel i : Nat) :
    1 ≤ (retryRun a sr d i fuel).attempts := by
  cases fuel with
  | zero =>
    rw [retryRun]
    cases a i <;> simp
  | succ n =>
    rw [retryRun]
    cases a i with
    | ok v => simp
    | error e =>
      by_cases hsr : sr e = true
      · simp [hsr]
      · simp [hsr]

theorem retryRun_delays (a : Nat → Except GetLogsError (List Log))
    (sr : GetLogsError → Bool) (d : Nat) :
    ∀ (fuel i : Nat),
      (retryRun a sr d i fuel).delays =
        List.replicate ((retryRun a sr d i fuel).attempts - 1) d := by
  intro fuel
  induction fuel with
  | zero =>
    intro i
    rw [retryRun]
    cases a i <;> simp
  | succ n ih =>
    intro i
    rw [retryRun]
    cases ha : a i with
    | ok v => simp
    | error e =>
      by_cases hsr : sr e = true
      · simp only [hsr, if_true, Nat.add_sub_cancel]
        rw [ih (i + 1)]
        have hpos := retryRun_attempts_pos a sr d n (i + 1)
        obtain ⟨m, hm⟩ := Nat.exists_eq_add_of_le hpos
        rw [hm, Nat.add_comm 1 m, Nat.add_sub_cancel, List.replicate_succ]
      · simp [hsr]

theorem retryRun_no_retry (a : Nat → Except GetLogsError (List Log))
    (sr : GetLogsError → Bool) (d fuel i : Nat) (e : GetLogsError)
    (ha : a i = Except.error e) (hsr : sr e = false) :
    retryRun a sr d i fuel = ⟨Except.error e, 1, []⟩ := by
  cases fuel <;> simp [retryRun, ha, hsr]

/-- Claim C6: the standard transport's getLogs makes at most 6 attempts
(the first try plus up to 5 retries) with the 1000 ms delay slept between
consecutive attempts, and a JsonRpcError whose provider message contains
"query returned more than" or "Log response size exceeded" is converted
to the distinguished range-too-wide error, which is never retried --
whatever retry budget remains, it settles immediately after the attempt
that produced it -- and propagates to the caller. -/
theorem getLogs_retry_and_range_too_wide (rawAttempts : Nat → RpcAttempt) :
    (getLogsRpc rawAttempts).attempts ≤ 6 ∧
    (getLogsRpc rawAttempts).delays =
      List.replicate ((getLogsRpc rawAttempts).attempts - 1) 1000 ∧
    (∀ m, rawAttempts 0 = RpcAttempt.jsonRpcErr (some m) →
      msgRangeTooWide m = true →
      getLogsRpc rawAttempts =
        ⟨Except.error (GetLogsError.rangeTooWide (some m)), 1, []⟩) ∧
    (∀ i fuel m, rawAttempts i = RpcAttempt.jsonRpcErr (some m) →
      msgRangeTooWide m = true →
      retryRun (fun j => classifyAttempt (rawAttempts j)) shouldRetryGetLogs
        1000 i fuel =
        ⟨Except.error (GetLogsError.rangeTooWide (some m)), 1, []⟩) := by
  refine ⟨retryRun_attempts_le _ _ _ 5 0, retryRun_delays _ _ _ 5 0,
    ?_, ?_⟩
  · intro m h0 hm
    unfold getLogsRpc
    refine retryRun_no_retry _ _ _ _ _ _ ?_ rfl
    simp [h0, classifyAttempt, hm]
  · intro i fuel m hi hm
    refine retryRun_no_retry _ _ _ _ _ _ ?_ rfl
    simp [hi, classifyAttempt, hm]

def rtwMsg : String := "query returned more than 10000 results"

def rawRTW : Nat → RpcAttempt :=
  fun _ => RpcAttempt.jsonRpcErr (some rtwMsg)

theorem getLogs_retry_and_range_too_wide_witness :
    rawRTW 0 = RpcAttempt.jsonRpcErr (some rtwMsg) ∧
    msgRangeTooWide rtwMsg = true ∧
    getLogsRpc rawRTW =
      ⟨Except.error (GetLogsError.rangeTooWide (some rtwMsg)), 1, []⟩ :=
  ⟨rfl, by decide,
    (getLogs_retry_and_range_too_wide rawRTW).2.2.1 rtwMsg rfl (by decide)⟩

end ChainIndexer
